import Mathlib

/-!
Verification of the NUMA-aware allocator facade in `src/zmalloc.c`
(Redis-CXL repository).

The C file is shallowly embedded as follows.

* The operating-system facilities consulted by the allocator
  (`numa_available`, `numa_max_node`, `numa_bitmask_isbitset` on
  `numa_all_nodes_ptr`, `numa_distance`, `sched_getcpu`,
  `numa_node_of_cpu`) are a fixed snapshot, the `Topology` structure.
* Success or failure of the underlying allocation primitives
  (`numa_alloc_onnode`, `malloc`, `numa_realloc`/`realloc`) is decided by
  an `Oracle`; the allocator must behave correctly for every oracle.
* The mutable globals of `zmalloc.c` (`used_memory`,
  `zmalloc_thread_safe`, `numa_support_available`, `default_numa_node`,
  `numa_initialized`, `sorted_nodes_by_distance`, `num_available_nodes`,
  `current_numa_policy`) become fields of `ZState`, together with a heap
  of live blocks.  The heap is an association list from abstract
  addresses (`Nat`) to blocks; `nextAddr` provides fresh addresses.
* A block records the payload size written into its hidden header
  (`*((size_t*)ptr) = size`, the build without `HAVE_MALLOC_SIZE`, which
  is the configuration on Linux/glibc where this NUMA code compiles),
  its payload bytes, and the node the underlying allocation targeted
  (`some n` for `numa_alloc_onnode(_, n)`, `none` for plain `malloc`).
  Uninitialized fresh memory is modelled as zero bytes; no claim below
  depends on the value of uncopied bytes.
* `size_t` arithmetic on the `used_memory` counter is modelled exactly,
  as arithmetic modulo `2 ^ 64`.
* `zmalloc_oom` calls `abort()`; an aborted call is modelled as `none`.
  Calling `zfree`/`zrealloc` on a pointer that is not live is undefined
  behavior in the C program (the header read is wild); such calls are
  also modelled as `none` (no defined result state).
-/

/-- Snapshot of the operating-system topology facilities used by
`zmalloc.c`.  `numaAvailable` is the return value of `numa_available()`
(`0` means the library is usable), `maxNode` of `numa_max_node()`,
`present i` of `numa_bitmask_isbitset(numa_all_nodes_ptr, i)`,
`distance a b` of `numa_distance(a, b)`, `currentCpu` of
`sched_getcpu()`, and `nodeOfCpu c` of `numa_node_of_cpu(c)`. -/
structure Topology where
  numaAvailable : Int
  maxNode : Int
  present : Int → Bool
  distance : Int → Int → Int
  currentCpu : Int
  nodeOfCpu : Int → Int

/-- Success oracle for the underlying allocation primitives:
`onnodeOk n` decides whether `numa_alloc_onnode(_, n)` returns a
non-null pointer, `mallocOk` whether `malloc` does, and `reallocOk`
whether `numa_realloc`/`realloc` does. -/
structure Oracle where
  onnodeOk : Int → Bool
  mallocOk : Bool
  reallocOk : Bool

/-- The `numa_policy_t` enumeration of `zmalloc.c`. -/
inductive numa_policy_t where
  | NUMA_POLICY_DEFAULT
  | NUMA_POLICY_DISTANCE_FIRST
  | NUMA_POLICY_ROUND_ROBIN
  | NUMA_POLICY_BALANCED
deriving DecidableEq, Repr

/-- A live block: the payload size recorded in the hidden header, the
payload bytes, and the node targeted by the underlying allocation
(`none` for untargeted `malloc`). -/
structure Block where
  size : Nat
  data : List Nat
  allocNode : Option Int
deriving DecidableEq, Repr

/-- The mutable global state of `zmalloc.c`, plus the heap of live
blocks allocated through the facade. -/
structure ZState where
  used_memory : Nat
  zmalloc_thread_safe : Bool
  numa_support_available : Int
  default_numa_node : Int
  numa_initialized : Bool
  sorted_nodes_by_distance : Option (List Int)
  num_available_nodes : Int
  current_numa_policy : numa_policy_t
  heap : List (Nat × Block)
  nextAddr : Nat
deriving DecidableEq, Repr

/-- Initial values of the globals in `zmalloc.c` (file scope
initializers), with an empty heap. -/
def initialState : ZState where
  used_memory := 0
  zmalloc_thread_safe := false
  numa_support_available := 0
  default_numa_node := -1
  numa_initialized := false
  sorted_nodes_by_distance := none
  num_available_nodes := 0
  current_numa_policy := .NUMA_POLICY_DISTANCE_FIRST
  heap := []
  nextAddr := 0

/-- PREFIX_SIZE on a non-Solaris build: `sizeof(size_t)` = 8. -/
def PREFIX_SIZE : Nat := 8

/-- Modulus of `size_t` arithmetic. -/
def SIZE_MOD : Nat := 2 ^ 64

/-- Addition on `size_t`: `used_memory += n`. -/
def addW (a n : Nat) : Nat := (a + n) % SIZE_MOD

/-- Subtraction on `size_t`: `used_memory -= n` (two's-complement wrap). -/
def subW (a n : Nat) : Nat := (a + (SIZE_MOD - n % SIZE_MOD)) % SIZE_MOD

/-- Heap lookup (first binding of the address). -/
def hlookup : List (Nat × Block) → Nat → Option Block
  | [], _ => none
  | (k, b) :: t, p => if k = p then some b else hlookup t p

/-- Heap removal of the first binding of the address. -/
def hremove : List (Nat × Block) → Nat → List (Nat × Block)
  | [], _ => []
  | (k, b) :: t, p => if k = p then t else (k, b) :: hremove t p

/-- Heap in-place replacement of the first binding of the address. -/
def hupdate : List (Nat × Block) → Nat → Block → List (Nat × Block)
  | [], _, _ => []
  | (k, b) :: t, p, nb => if k = p then (k, nb) :: t else (k, b) :: hupdate t p nb

/-- Sum of `payload size + header width` over all live blocks; the
quantity the `used_memory` counter is meant to track. -/
def hsum : List (Nat × Block) → Nat
  | [] => 0
  | (_, b) :: t => (b.size + PREFIX_SIZE) + hsum t

/-- Reference node used by `compare_nodes_by_distance`: the node of the
calling CPU when `sched_getcpu` and `numa_node_of_cpu` both answer, and
node 0 otherwise. -/
def refNode (topo : Topology) : Int :=
  if topo.currentCpu < 0 then 0
  else if 0 ≤ topo.nodeOfCpu topo.currentCpu then topo.nodeOfCpu topo.currentCpu
  else 0

/-- The comparison callback `compare_nodes_by_distance` of
`zmalloc.c` (lines 168-187), branch for branch. -/
def compare_nodes_by_distance (topo : Topology) (node_a node_b : Int) : Int :=
  if topo.currentCpu < 0 then
    topo.distance 0 node_a - topo.distance 0 node_b
  else
    if 0 ≤ topo.nodeOfCpu topo.currentCpu then
      topo.distance (topo.nodeOfCpu topo.currentCpu) node_a -
        topo.distance (topo.nodeOfCpu topo.currentCpu) node_b
    else
      topo.distance 0 node_a - topo.distance 0 node_b

/-- Non-strict order induced by the comparator (`cmp a b <= 0`), the
relation a conforming `qsort` sorts by. -/
def nodeLe (topo : Topology) (a b : Int) : Prop :=
  compare_nodes_by_distance topo a b ≤ 0

instance instDecNodeLe (topo : Topology) : DecidableRel (nodeLe topo) :=
  fun a b => inferInstanceAs (Decidable (compare_nodes_by_distance topo a b ≤ 0))

/-- The nodes collected by the loop in `init_sorted_nodes`
(lines 208-212): all `i` in `[0, max_node]` with the presence bit set,
in ascending id order. -/
def availableNodes (topo : Topology) : List Int :=
  (((List.range (topo.maxNode + 1).toNat).map (fun i : Nat => (i : Int))).filter
    (fun n => topo.present n))

/-- The sorted node array produced by `init_sorted_nodes`.  The C code
sorts with `qsort`, whose result is any permutation consistent with the
comparator; the model uses a concrete comparator-consistent sort so
that the state remains executable. -/
def init_sorted_list (topo : Topology) : List Int :=
  List.insertionSort (nodeLe topo) (availableNodes topo)

/-- State effect of `init_sorted_nodes` (lines 192-229): rebuild
`sorted_nodes_by_distance` and `num_available_nodes` from the topology
snapshot. -/
def init_sorted_nodes (topo : Topology) (s : ZState) : ZState :=
  if topo.maxNode < 0 then
    { s with num_available_nodes := 0, sorted_nodes_by_distance := none }
  else
    if (availableNodes topo).isEmpty then
      { s with num_available_nodes := 0, sorted_nodes_by_distance := none }
    else
      { s with num_available_nodes := ((availableNodes topo).length : Int),
               sorted_nodes_by_distance := some (init_sorted_list topo) }

/-- Read of `sorted_nodes_by_distance[0]`.  The fallback arm is dead
code: `zmalloc_numa_init` reads the array only under
`num_available_nodes > 0`, which guarantees a non-empty array. -/
def sortedHead (s : ZState) : Int :=
  match s.sorted_nodes_by_distance with
  | some (n :: _) => n
  | _ => -1

/-- Function `zmalloc_numa_init` (lines 263-293): probe `numa_available`, build
the ranking, pick the nearest node as default, and mark initialized. -/
def zmalloc_numa_init (topo : Topology) (s : ZState) : ZState :=
  if s.numa_initialized then s
  else
    let s1 := { s with numa_support_available := topo.numaAvailable }
    let s2 :=
      if s1.numa_support_available = 0 then
        if 0 ≤ topo.maxNode then
          let s3 := init_sorted_nodes topo s1
          if 0 < s3.num_available_nodes then
            { s3 with default_numa_node := sortedHead s3 }
          else
            { s3 with numa_support_available := -1 }
        else
          { s1 with numa_support_available := -1 }
      else s1
    { s2 with numa_initialized := true }

/-- Node chosen by `numa_alloc_distance_first` (lines 234-254): the
first node of the ranking on which the targeted allocation succeeds;
`none` when the ranking is absent/empty or every attempt fails. -/
def numa_alloc_distance_first (o : Oracle) (s : ZState) : Option Int :=
  match s.sorted_nodes_by_distance with
  | none => none
  | some l =>
    if s.num_available_nodes = 0 then none
    else l.find? (fun n => o.onnodeOk n)

/-- Outcome of the allocation attempts of `zmalloc_internal`
(lines 319-346): `none` means every attempted path failed (the code
then calls `zmalloc_oom`); `some tgt` means success, with
`tgt = some n` for `numa_alloc_onnode(_, n)` and `tgt = none` for the
untargeted `malloc`. -/
def alloc_attempt (o : Oracle) (s : ZState) (node : Int) : Option (Option Int) :=
  if s.numa_support_available = 0 ∧ 0 ≤ node then
    if o.onnodeOk node then some (some node) else none
  else if s.numa_support_available = 0 then
    let smart : Option Int :=
      match s.current_numa_policy with
      | .NUMA_POLICY_DISTANCE_FIRST => numa_alloc_distance_first o s
      | _ =>
        if 0 ≤ s.default_numa_node then
          if o.onnodeOk s.default_numa_node then some s.default_numa_node else none
        else none
    match smart with
    | some n => some (some n)
    | none => if o.mallocOk then some none else none
  else
    if o.mallocOk then some none else none

/-- Function `zmalloc_internal` (lines 312-359): lazy NUMA initialization, the
branch ladder of allocation attempts, header write, accounting update.
`none` models the `zmalloc_oom`/`abort` path. -/
def zmalloc_internal (topo : Topology) (o : Oracle) (s : ZState) (size : Nat)
    (node : Int) : Option (ZState × Nat) :=
  let s1 := if s.numa_initialized then s else zmalloc_numa_init topo s
  match alloc_attempt o s1 node with
  | none => none
  | some tgt =>
    some ({ s1 with
              heap := s1.heap ++ [(s1.nextAddr, ⟨size, List.replicate size 0, tgt⟩)],
              nextAddr := s1.nextAddr + 1,
              used_memory := addW s1.used_memory (size + PREFIX_SIZE) },
          s1.nextAddr)

/-- Function `zmalloc` (line 402): automatic node selection via `node = -1`. -/
def zmalloc (topo : Topology) (o : Oracle) (s : ZState) (size : Nat) :
    Option (ZState × Nat) :=
  zmalloc_internal topo o s size (-1)

/-- Function `zmalloc_on_node` (line 409). -/
def zmalloc_on_node (topo : Topology) (o : Oracle) (s : ZState) (size : Nat)
    (node : Int) : Option (ZState × Nat) :=
  zmalloc_internal topo o s size node

/-- Function `zfree_internal` (lines 364-393): no-op on a null pointer, header
read, accounting decrement, release.  Freeing a non-live pointer is
undefined behavior and has no modelled result state. -/
def zfree_internal (s : ZState) (ptr : Option Nat) : Option ZState :=
  match ptr with
  | none => some s
  | some p =>
    match hlookup s.heap p with
    | none => none
    | some blk =>
      some { s with heap := hremove s.heap p,
                    used_memory := subW s.used_memory (blk.size + PREFIX_SIZE) }

/-- Function `zfree` (line 499). -/
def zfree (s : ZState) (ptr : Option Nat) : Option ZState :=
  zfree_internal s ptr

/-- Function `zrealloc` (lines 416-459): null pointer delegates to `zmalloc`;
otherwise resize in place via `numa_realloc`/`realloc` (preserving
`min(oldsize, size)` payload bytes), rewrite the header and adjust the
accounting.  A failed resize aborts (`zmalloc_oom`). -/
def zrealloc (topo : Topology) (o : Oracle) (s : ZState) (ptr : Option Nat)
    (size : Nat) : Option (ZState × Nat) :=
  match ptr with
  | none => zmalloc topo o s size
  | some p =>
    match hlookup s.heap p with
    | none => none
    | some blk =>
      if o.reallocOk then
        some ({ s with
                  heap := hupdate s.heap p
                    ⟨size, blk.data.take size ++ List.replicate (size - blk.size) 0,
                     blk.allocNode⟩,
                  used_memory := addW (subW s.used_memory (blk.size + PREFIX_SIZE))
                                      (size + PREFIX_SIZE) }, p)
      else none

/-- Effect of `memcpy(dst, src, n)` into the front of the block at
address `a`. -/
def memcpyInto (h : List (Nat × Block)) (a : Nat) (src : List Nat) :
    List (Nat × Block) :=
  match hlookup h a with
  | none => h
  | some blk => hupdate h a ⟨blk.size, src ++ blk.data.drop src.length, blk.allocNode⟩

/-- Function `zrealloc_on_node` (lines 464-494): allocate new on the node, copy
`min(old payload size, new payload size)` bytes, free the old block.
A null input pointer skips both the copy and the free. -/
def zrealloc_on_node (topo : Topology) (o : Oracle) (s : ZState) (ptr : Option Nat)
    (size : Nat) (node : Int) : Option (ZState × Nat) :=
  match zmalloc_on_node topo o s size node with
  | none => none
  | some (s1, newa) =>
    match ptr with
    | none => some (s1, newa)
    | some p =>
      match hlookup s1.heap p with
      | none => none
      | some blk =>
        let s2 := { s1 with
                      heap := memcpyInto s1.heap newa (blk.data.take (min blk.size size)) }
        match zfree_internal s2 (some p) with
        | none => none
        | some s3 => some (s3, newa)

/-- Function `zmalloc_used_memory` (lines 520-526); the lock changes no value. -/
def zmalloc_used_memory (s : ZState) : Nat :=
  s.used_memory

/-- Function `zmalloc_enable_thread_safeness` (line 531). -/
def zmalloc_enable_thread_safeness (s : ZState) : ZState :=
  { s with zmalloc_thread_safe := true }

/-- Function `zmalloc_get_current_numa_node` (lines 538-546): lazy init, then
return the stored default node when NUMA support is available and `-1`
otherwise.  Returns the (possibly initialized) state with the value. -/
def zmalloc_get_current_numa_node (topo : Topology) (s : ZState) : ZState × Int :=
  let s1 := if s.numa_initialized then s else zmalloc_numa_init topo s
  if s1.numa_support_available = 0 then (s1, s1.default_numa_node) else (s1, -1)

/-- Function `zmalloc_set_numa_node` (lines 551-560): lazy init, then store the
node if `0 <= node < numa_max_node() + 1`, else only print a
diagnostic (no state change). -/
def zmalloc_set_numa_node (topo : Topology) (s : ZState) (node : Int) : ZState :=
  let s1 := if s.numa_initialized then s else zmalloc_numa_init topo s
  if 0 ≤ node ∧ node < topo.maxNode + 1 then
    { s1 with default_numa_node := node }
  else s1

/-- Function `zmalloc_set_numa_policy` (lines 565-568). -/
def zmalloc_set_numa_policy (s : ZState) (p : numa_policy_t) : ZState :=
  { s with current_numa_policy := p }

/-- Function `zmalloc_cleanup_numa` (lines 573-580). -/
def zmalloc_cleanup_numa (s : ZState) : ZState :=
  { s with sorted_nodes_by_distance := none, num_available_nodes := 0,
           numa_initialized := false }

/-- One facade call of the allocate/free family (the operations claim
C2 quantifies over). -/
inductive Op where
  | alloc (size : Nat)
  | allocOnNode (size : Nat) (node : Int)
  | realloc (ptr : Option Nat) (size : Nat)
  | reallocOnNode (ptr : Option Nat) (size : Nat) (node : Int)
  | free (ptr : Option Nat)
deriving DecidableEq, Repr

/-- Effect of one facade call on the allocator state; `none` when the
call aborts the process or exercises undefined behavior. -/
def step (topo : Topology) (o : Oracle) (s : ZState) : Op → Option ZState
  | .alloc size => (zmalloc topo o s size).map Prod.fst
  | .allocOnNode size node => (zmalloc_on_node topo o s size node).map Prod.fst
  | .realloc ptr size => (zrealloc topo o s ptr size).map Prod.fst
  | .reallocOnNode ptr size node =>
      (zrealloc_on_node topo o s ptr size node).map Prod.fst
  | .free ptr => zfree s ptr

/-- Run a sequence of facade calls, each under its own success
oracle. -/
def run (topo : Topology) (s : ZState) : List (Oracle × Op) → Option ZState
  | [] => some s
  | (o, op) :: rest =>
    match step topo o s op with
    | none => none
    | some s' => run topo s' rest

/-! Section: Concrete fixtures used by witnesses and counterexamples -/

/-- Single-node topology: NUMA available, only node 0 present. -/
def topoA : Topology := ⟨0, 0, fun _ => true, fun _ _ => 10, -1, fun _ => -1⟩

/-- Two-node topology with self-distance 10 and cross-distance 20. -/
def topoB : Topology := ⟨0, 1, fun _ => true, fun a b => if a = b then 10 else 20, -1, fun _ => -1⟩

/-- Three-node topology; from reference node 0, nodes 1 and 2 are at
the same distance 20 (a distance tie). -/
def topoC : Topology := ⟨0, 2, fun _ => true, fun a b => if a = b then 10 else 20, -1, fun _ => -1⟩

/-- Oracle under which every allocation primitive succeeds. -/
def oracleOk : Oracle := ⟨fun _ => true, true, true⟩

/-- Oracle under which every node-targeted allocation fails while the
untargeted `malloc` (and `realloc`) succeed. -/
def oracleNoNode : Oracle := ⟨fun _ => false, true, true⟩

/-- Oracle under which node-targeted allocation succeeds only on
node 0 (the only node of `topoA`); `malloc` succeeds. -/
def oracleOnlyNode0 : Oracle := ⟨fun n => n == 0, true, true⟩

/-! Section: Heap algebra -/

theorem hsum_append (h : List (Nat × Block)) (k : Nat) (b : Block) :
    hsum (h ++ [(k, b)]) = hsum h + (b.size + PREFIX_SIZE) := by
  induction h with
  | nil => simp [hsum]
  | cons x t ih => cases x; simp [hsum, ih]; omega

theorem hlookup_le_hsum (h : List (Nat × Block)) (p : Nat) (b : Block)
    (hl : hlookup h p = some b) : b.size + PREFIX_SIZE ≤ hsum h := by
  induction h with
  | nil => simp [hlookup] at hl
  | cons x t ih =>
    cases x with
    | mk k bb =>
      by_cases hk : k = p
      · simp [hlookup, hk] at hl
        subst hl
        simp [hsum]
      · simp [hlookup, hk] at hl
        have := ih hl
        simp [hsum]
        omega

theorem hsum_hremove (h : List (Nat × Block)) (p : Nat) (b : Block)
    (hl : hlookup h p = some b) :
    hsum (hremove h p) = hsum h - (b.size + PREFIX_SIZE) := by
  induction h with
  | nil => simp [hlookup] at hl
  | cons x t ih =>
    cases x with
    | mk k bb =>
      by_cases hk : k = p
      · simp [hlookup, hk] at hl
        subst hl
        simp [hremove, hk, hsum]
      · simp [hlookup, hk] at hl
        have h1 := ih hl
        have h2 := hlookup_le_hsum t p b hl
        simp [hremove, hk, hsum, h1]
        omega

theorem hsum_hupdate (h : List (Nat × Block)) (p : Nat) (b nb : Block)
    (hl : hlookup h p = some b) :
    hsum (hupdate h p nb) = hsum h - (b.size + PREFIX_SIZE) + (nb.size + PREFIX_SIZE) := by
  induction h with
  | nil => simp [hlookup] at hl
  | cons x t ih =>
    cases x with
    | mk k bb =>
      by_cases hk : k = p
      · simp [hlookup, hk] at hl
        subst hl
        simp [hupdate, hk, hsum]
        omega
      · simp [hlookup, hk] at hl
        have h1 := ih hl
        have h2 := hlookup_le_hsum t p b hl
        simp [hupdate, hk, hsum, h1]
        omega

theorem hlookup_append_left (h t : List (Nat × Block)) (p : Nat) (b : Block)
    (hl : hlookup h p = some b) : hlookup (h ++ t) p = some b := by
  induction h with
  | nil => simp [hlookup] at hl
  | cons x hh ih =>
    cases x with
    | mk k bb =>
      by_cases hk : k = p
      · simp_all [hlookup]
      · simp_all [hlookup]

theorem hlookup_append_fresh (h : List (Nat × Block)) (p : Nat) (b : Block)
    (hfresh : ∀ k bb, (k, bb) ∈ h → k ≠ p) :
    hlookup (h ++ [(p, b)]) p = some b := by
  induction h with
  | nil => simp [hlookup]
  | cons x hh ih =>
    cases x with
    | mk k bb =>
      have hk : k ≠ p := hfresh k bb (by simp)
      simp only [List.cons_append, hlookup, if_neg hk]
      exact ih (fun k' b' hm => hfresh k' b' (by simp [hm]))

theorem hlookup_hupdate_self (h : List (Nat × Block)) (p : Nat) (b nb : Block)
    (hl : hlookup h p = some b) : hlookup (hupdate h p nb) p = some nb := by
  induction h with
  | nil => simp [hlookup] at hl
  | cons x t ih =>
    cases x with
    | mk k bb =>
      by_cases hk : k = p
      · simp_all [hlookup, hupdate]
      · simp_all [hlookup, hupdate]

theorem hlookup_hupdate_ne (h : List (Nat × Block)) (p q : Nat) (nb : Block)
    (hq : q ≠ p) : hlookup (hupdate h p nb) q = hlookup h q := by
  induction h with
  | nil => simp [hlookup, hupdate]
  | cons x t ih =>
    cases x with
    | mk k bb =>
      by_cases hk : k = p
      · subst hk
        have hk2 : k ≠ q := fun h => hq h.symm
        simp [hupdate, hlookup, hk2]
      · simp [hupdate, hlookup, hk, ih]

theorem hlookup_hremove_ne (h : List (Nat × Block)) (p q : Nat)
    (hq : q ≠ p) : hlookup (hremove h p) q = hlookup h q := by
  induction h with
  | nil => simp [hlookup, hremove]
  | cons x t ih =>
    cases x with
    | mk k bb =>
      by_cases hk : k = p
      · subst hk
        have hk2 : k ≠ q := fun h => hq h.symm
        simp [hremove, hlookup, hk2]
      · simp [hremove, hlookup, hk, ih]

theorem hsum_memcpyInto (h : List (Nat × Block)) (a : Nat) (src : List Nat) :
    hsum (memcpyInto h a src) = hsum h := by
  unfold memcpyInto
  cases hl : hlookup h a with
  | none => rfl
  | some blk =>
    show hsum (hupdate h a ⟨blk.size, src ++ blk.data.drop src.length, blk.allocNode⟩)
      = hsum h
    rw [hsum_hupdate h a blk _ hl]
    show hsum h - (blk.size + PREFIX_SIZE) + (blk.size + PREFIX_SIZE) = hsum h
    have h2 := hlookup_le_hsum h a blk hl
    omega

/-! Section: size_t arithmetic -/

theorem addW_mod (x n : Nat) : addW (x % SIZE_MOD) n = (x + n) % SIZE_MOD := by
  unfold addW SIZE_MOD
  omega

theorem subW_mod (x n : Nat) (h : n ≤ x) :
    subW (x % SIZE_MOD) n = (x - n) % SIZE_MOD := by
  unfold subW SIZE_MOD
  omega

/-! Section: Lazy initialization preserves the accounting state -/

/-- State after the lazy-init check at the top of `zmalloc_internal`. -/
def stInit (topo : Topology) (s : ZState) : ZState :=
  if s.numa_initialized then s else zmalloc_numa_init topo s

theorem zmalloc_numa_init_preserves (topo : Topology) (s : ZState) :
    (zmalloc_numa_init topo s).heap = s.heap ∧
    (zmalloc_numa_init topo s).used_memory = s.used_memory ∧
    (zmalloc_numa_init topo s).nextAddr = s.nextAddr ∧
    (zmalloc_numa_init topo s).current_numa_policy = s.current_numa_policy := by
  unfold zmalloc_numa_init init_sorted_nodes
  by_cases h1 : s.numa_initialized <;> simp [h1] <;> split_ifs <;> simp

theorem stInit_preserves (topo : Topology) (s : ZState) :
    (stInit topo s).heap = s.heap ∧
    (stInit topo s).used_memory = s.used_memory ∧
    (stInit topo s).nextAddr = s.nextAddr ∧
    (stInit topo s).current_numa_policy = s.current_numa_policy := by
  unfold stInit
  split_ifs
  · exact ⟨rfl, rfl, rfl, rfl⟩
  · exact zmalloc_numa_init_preserves topo s

theorem zmalloc_internal_eq (topo : Topology) (o : Oracle) (s : ZState) (size : Nat)
    (node : Int) :
    zmalloc_internal topo o s size node =
      match alloc_attempt o (stInit topo s) node with
      | none => none
      | some tgt =>
        some ({ stInit topo s with
                  heap := (stInit topo s).heap ++
                    [((stInit topo s).nextAddr, ⟨size, List.replicate size 0, tgt⟩)],
                  nextAddr := (stInit topo s).nextAddr + 1,
                  used_memory := addW (stInit topo s).used_memory (size + PREFIX_SIZE) },
              (stInit topo s).nextAddr) := rfl

theorem zmalloc_internal_shape (topo : Topology) (o : Oracle) (s : ZState) (size : Nat)
    (node : Int) (s' : ZState) (a : Nat)
    (h : zmalloc_internal topo o s size node = some (s', a)) :
    ∃ tgt : Option Int,
      alloc_attempt o (stInit topo s) node = some tgt ∧
      s' = { stInit topo s with
               heap := (stInit topo s).heap ++
                 [((stInit topo s).nextAddr, ⟨size, List.replicate size 0, tgt⟩)],
               nextAddr := (stInit topo s).nextAddr + 1,
               used_memory := addW (stInit topo s).used_memory (size + PREFIX_SIZE) } ∧
      a = (stInit topo s).nextAddr := by
  rw [zmalloc_internal_eq] at h
  cases halt : alloc_attempt o (stInit topo s) node with
  | none => rw [halt] at h; exact absurd h (by simp)
  | some tgt =>
    rw [halt] at h
    simp at h
    exact ⟨tgt, rfl, h.1.symm, h.2.symm⟩

/-! Section: The accounting invariant (claim C2) -/

/-- Accounting invariant: the `used_memory` counter equals, modulo
`size_t` overflow, the sum of `payload size + header width` over all
live blocks. -/
def AccInv (s : ZState) : Prop :=
  s.used_memory = hsum s.heap % SIZE_MOD

theorem accInv_stInit (topo : Topology) (s : ZState) (hinv : AccInv s) :
    AccInv (stInit topo s) := by
  obtain ⟨h1, h2, -, -⟩ := stInit_preserves topo s
  unfold AccInv at *
  rw [h1, h2]
  exact hinv

theorem accInv_zmalloc_internal (topo : Topology) (o : Oracle) (s : ZState)
    (size : Nat) (node : Int) (s' : ZState) (a : Nat)
    (hinv : AccInv s) (h : zmalloc_internal topo o s size node = some (s', a)) :
    AccInv s' := by
  obtain ⟨tgt, -, hs', -⟩ := zmalloc_internal_shape topo o s size node s' a h
  subst hs'
  have h1 := accInv_stInit topo s hinv
  unfold AccInv at *
  simp only [hsum_append]
  rw [h1, addW_mod]

theorem accInv_zfree_internal (s : ZState) (ptr : Option Nat) (s' : ZState)
    (hinv : AccInv s) (h : zfree_internal s ptr = some s') : AccInv s' := by
  cases ptr with
  | none => simp [zfree_internal] at h; rwa [← h]
  | some p =>
    simp only [zfree_internal] at h
    cases hl : hlookup s.heap p with
    | none => rw [hl] at h; exact absurd h (by simp)
    | some blk =>
      rw [hl] at h
      simp at h
      subst h
      unfold AccInv at *
      simp only
      rw [hsum_hremove s.heap p blk hl, hinv,
          subW_mod _ _ (hlookup_le_hsum s.heap p blk hl)]

theorem accInv_zrealloc (topo : Topology) (o : Oracle) (s : ZState)
    (ptr : Option Nat) (size : Nat) (s' : ZState) (a : Nat)
    (hinv : AccInv s) (h : zrealloc topo o s ptr size = some (s', a)) : AccInv s' := by
  cases ptr with
  | none => exact accInv_zmalloc_internal topo o s size (-1) s' a hinv h
  | some p =>
    simp only [zrealloc] at h
    cases hl : hlookup s.heap p with
    | none => simp only [hl] at h; exact absurd h (by simp)
    | some blk =>
      simp only [hl] at h
      by_cases hok : o.reallocOk
      · rw [if_pos hok] at h
        simp at h
        obtain ⟨h1, -⟩ := h
        subst h1
        unfold AccInv at *
        simp only
        have hle := hlookup_le_hsum s.heap p blk hl
        rw [hsum_hupdate s.heap p blk _ hl, hinv,
            subW_mod _ _ hle, addW_mod]
      · rw [if_neg hok] at h
        exact absurd h (by simp)

theorem accInv_zrealloc_on_node (topo : Topology) (o : Oracle) (s : ZState)
    (ptr : Option Nat) (size : Nat) (node : Int) (s' : ZState) (a : Nat)
    (hinv : AccInv s) (h : zrealloc_on_node topo o s ptr size node = some (s', a)) :
    AccInv s' := by
  cases hm : zmalloc_on_node topo o s size node with
  | none => simp only [zrealloc_on_node, hm] at h; exact absurd h (by simp)
  | some r =>
    obtain ⟨s1, newa⟩ := r
    have hinv1 : AccInv s1 := accInv_zmalloc_internal topo o s size node s1 newa hinv hm
    cases ptr with
    | none =>
      simp only [zrealloc_on_node, hm] at h
      simp at h
      rw [← h.1]
      exact hinv1
    | some p =>
      simp only [zrealloc_on_node, hm] at h
      cases hl : hlookup s1.heap p with
      | none => simp only [hl] at h; exact absurd h (by simp)
      | some blk =>
        simp only [hl] at h
        have hinv2 : AccInv { s1 with
            heap := memcpyInto s1.heap newa (blk.data.take (min blk.size size)) } := by
          unfold AccInv at *
          simp only [hsum_memcpyInto]
          exact hinv1
        cases hf : zfree_internal { s1 with
            heap := memcpyInto s1.heap newa (blk.data.take (min blk.size size)) } (some p) with
        | none => simp only [hf] at h; exact absurd h (by simp)
        | some s3 =>
          simp only [hf] at h
          simp at h
          rw [← h.1]
          exact accInv_zfree_internal _ _ _ hinv2 hf

theorem accInv_step (topo : Topology) (o : Oracle) (s s' : ZState) (op : Op)
    (hinv : AccInv s) (h : step topo o s op = some s') : AccInv s' := by
  cases op with
  | alloc size =>
    simp only [step] at h
    cases hz : zmalloc topo o s size with
    | none => rw [hz] at h; exact absurd h (by simp)
    | some r =>
      obtain ⟨s2, a⟩ := r
      rw [hz] at h
      simp at h
      rw [← h]
      exact accInv_zmalloc_internal topo o s size (-1) s2 a hinv hz
  | allocOnNode size node =>
    simp only [step] at h
    cases hz : zmalloc_on_node topo o s size node with
    | none => rw [hz] at h; exact absurd h (by simp)
    | some r =>
      obtain ⟨s2, a⟩ := r
      rw [hz] at h
      simp at h
      rw [← h]
      exact accInv_zmalloc_internal topo o s size node s2 a hinv hz
  | realloc ptr size =>
    simp only [step] at h
    cases hz : zrealloc topo o s ptr size with
    | none => rw [hz] at h; exact absurd h (by simp)
    | some r =>
      obtain ⟨s2, a⟩ := r
      rw [hz] at h
      simp at h
      rw [← h]
      exact accInv_zrealloc topo o s ptr size s2 a hinv hz
  | reallocOnNode ptr size node =>
    simp only [step] at h
    cases hz : zrealloc_on_node topo o s ptr size node with
    | none => rw [hz] at h; exact absurd h (by simp)
    | some r =>
      obtain ⟨s2, a⟩ := r
      rw [hz] at h
      simp at h
      rw [← h]
      exact accInv_zrealloc_on_node topo o s ptr size node s2 a hinv hz
  | free ptr =>
    exact accInv_zfree_internal s ptr s' hinv h

theorem accInv_run (topo : Topology) (ops : List (Oracle × Op)) (s s' : ZState)
    (hinv : AccInv s) (h : run topo s ops = some s') : AccInv s' := by
  induction ops generalizing s with
  | nil => simp [run] at h; rwa [← h]
  | cons x rest ih =>
    obtain ⟨o, op⟩ := x
    unfold run at h
    cases hs : step topo o s op with
    | none => rw [hs] at h; exact absurd h (by simp)
    | some s2 =>
      rw [hs] at h
      exact ih s2 (accInv_step topo o s s2 op hinv hs) h

/-- C2: for any sequence of allocate / allocate-on-node / reallocate /
reallocate-on-node / free calls (no concurrency in the model), the
`used_memory` counter after the sequence equals the sum of
`payload size + header width` over all blocks currently allocated
through the facade and not yet freed, each counted once at the size of
its most recent allocate/reallocate (the recorded header size).  The
side condition only excludes `size_t` overflow of the sum itself. -/
theorem c2_accounting_invariant (topo : Topology) (ops : List (Oracle × Op))
    (s' : ZState) (hrun : run topo initialState ops = some s')
    (hsmall : hsum s'.heap < SIZE_MOD) :
    zmalloc_used_memory s' = hsum s'.heap := by
  have hinv : AccInv s' := accInv_run topo ops initialState s' (by rfl) hrun
  unfold AccInv at hinv
  unfold zmalloc_used_memory
  rw [hinv, Nat.mod_eq_of_lt hsmall]

/-- Operation sequence exercising every operation of claim C2 once. -/
def opsC2 : List (Oracle × Op) :=
  [(oracleOk, .alloc 3), (oracleOk, .allocOnNode 2 0), (oracleOk, .realloc (some 0) 5),
   (oracleOk, .reallocOnNode (some 1) 1 0), (oracleOk, .free (some 2))]

/-- Final state of the C2 witness run. -/
def sC2 : ZState := (run topoA initialState opsC2).getD initialState

theorem c2_accounting_invariant_witness :
    zmalloc_used_memory sC2 = hsum sC2.heap :=
  c2_accounting_invariant topoA opsC2 sC2 (by decide) (by decide)

/-- C7: `zfree` on a null pointer is a no-op: it succeeds (no abort, no
undefined behavior) and returns the state unchanged, so in particular
`used_memory` and every other field are unaltered. -/
theorem c7_free_null_noop (s : ZState) : zfree s none = some s := rfl

/-- C6: `zrealloc` with a null input pointer behaves exactly as
`zmalloc(size)`, and `zrealloc_on_node` with a null input pointer
degenerates to a plain `zmalloc_on_node(size, node)`: no copy is
performed and no old block is freed. -/
theorem c6_realloc_null_is_alloc (topo : Topology) (o : Oracle) (s : ZState)
    (size : Nat) (node : Int) :
    zrealloc topo o s none size = zmalloc topo o s size ∧
    zrealloc_on_node topo o s none size node = zmalloc_on_node topo o s size node := by
  refine ⟨rfl, ?_⟩
  cases hm : zmalloc_on_node topo o s size node with
  | none => simp [zrealloc_on_node, hm]
  | some r =>
    obtain ⟨s1, newa⟩ := r
    simp [zrealloc_on_node, hm]

/-- C1 counterexample: single-node topology, every node-targeted
allocation fails, untargeted `malloc` would succeed
(`oracleNoNode.mallocOk = true`).  `zmalloc_on_node(100, 0)` (a valid
node hint) nevertheless reaches `zmalloc_oom` (result `none`): the
branch `numa_support_available == 0 && node >= 0` of
`zmalloc_internal` has no untargeted fallback, contradicting the
claim that out-of-memory is declared only after the untargeted path
also failed. -/
theorem c1_counterexample :
    oracleNoNode.mallocOk = true ∧
    zmalloc_internal topoA oracleNoNode initialState 100 0 = none :=
  ⟨rfl, by decide⟩

/-- C1 amended: the fallback guarantee holds only on the hint-free
path.  For `node < 0` (no valid hint), if every node-targeted attempt
fails, the allocation still succeeds via the untargeted `malloc`
whenever `malloc` succeeds, `used_memory` reflects the successful
block, and out-of-memory (`none`) is declared exactly when the
untargeted path fails too. -/
theorem c1_amended_fallback (topo : Topology) (o : Oracle) (s : ZState) (size : Nat)
    (node : Int) (hnode : node < 0) (hfail : ∀ n, o.onnodeOk n = false) :
    (o.mallocOk = true →
      ∃ s' a, zmalloc_internal topo o s size node = some (s', a) ∧
        zmalloc_used_memory s' = addW (zmalloc_used_memory s) (size + PREFIX_SIZE)) ∧
    (zmalloc_internal topo o s size node = none ↔ o.mallocOk = false) := by
  have hn : ¬ (0 ≤ node) := by omega
  have hatt : alloc_attempt o (stInit topo s) node =
      if o.mallocOk then some none else none := by
    unfold alloc_attempt
    have hc : ¬ ((stInit topo s).numa_support_available = 0 ∧ 0 ≤ node) := by
      rintro ⟨-, hcon⟩; exact hn hcon
    rw [if_neg hc]
    by_cases hs : (stInit topo s).numa_support_available = 0
    · rw [if_pos hs]
      have hsmart : (match (stInit topo s).current_numa_policy with
          | numa_policy_t.NUMA_POLICY_DISTANCE_FIRST =>
              numa_alloc_distance_first o (stInit topo s)
          | _ =>
            if 0 ≤ (stInit topo s).default_numa_node then
              if o.onnodeOk (stInit topo s).default_numa_node then
                some (stInit topo s).default_numa_node
              else none
            else none) = (none : Option Int) := by
        cases (stInit topo s).current_numa_policy with
        | NUMA_POLICY_DISTANCE_FIRST =>
          simp only
          unfold numa_alloc_distance_first
          cases (stInit topo s).sorted_nodes_by_distance with
          | none => rfl
          | some l => simp [hfail]
        | NUMA_POLICY_DEFAULT => simp [hfail]
        | NUMA_POLICY_ROUND_ROBIN => simp [hfail]
        | NUMA_POLICY_BALANCED => simp [hfail]
      rw [hsmart]
    · rw [if_neg hs]
  have hrun : zmalloc_internal topo o s size node =
      if o.mallocOk then
        some ({ stInit topo s with
                  heap := (stInit topo s).heap ++
                    [((stInit topo s).nextAddr, ⟨size, List.replicate size 0, none⟩)],
                  nextAddr := (stInit topo s).nextAddr + 1,
                  used_memory := addW (stInit topo s).used_memory (size + PREFIX_SIZE) },
              (stInit topo s).nextAddr)
      else none := by
    rw [zmalloc_internal_eq, hatt]
    by_cases hm : o.mallocOk <;> simp [hm]
  obtain ⟨-, hu, -, -⟩ := stInit_preserves topo s
  constructor
  · intro hm
    rw [hrun, if_pos hm]
    exact ⟨_, _, rfl, by simp [zmalloc_used_memory, hu]⟩
  · rw [hrun]
    by_cases hm : o.mallocOk <;> simp [hm]

theorem c1_amended_fallback_witness :
    (oracleNoNode.mallocOk = true →
      ∃ s' a, zmalloc_internal topoA oracleNoNode initialState 5 (-3) = some (s', a) ∧
        zmalloc_used_memory s' =
          addW (zmalloc_used_memory initialState) (5 + PREFIX_SIZE)) ∧
    (zmalloc_internal topoA oracleNoNode initialState 5 (-3) = none ↔
      oracleNoNode.mallocOk = false) :=
  c1_amended_fallback topoA oracleNoNode initialState 5 (-3) (by decide) (fun _ => rfl)

/-- Node targeted by the underlying allocation of a successful facade
call, read back from the allocated block. -/
def allocTarget (r : Option (ZState × Nat)) : Option (Option Int) :=
  match r with
  | none => none
  | some (s, a) =>
    match hlookup s.heap a with
    | none => none
    | some b => some b.allocNode

/-- C3 counterexample: on `topoA` the highest valid node id is 0, yet
`zmalloc_on_node(3, 5)` passes the out-of-range id 5 straight to
`numa_alloc_onnode` as the allocation target (the allocated block
records target node 5), and when targeted allocation fails on the
out-of-range node the call aborts (`none`) even though `malloc` was
available — so an out-of-range hint is neither treated as "no valid
hint" nor funneled into policy-driven selection. -/
theorem c3_counterexample :
    topoA.maxNode = 0 ∧
    allocTarget (zmalloc_internal topoA oracleOk initialState 3 5) = some (some 5) ∧
    oracleOnlyNode0.mallocOk = true ∧
    zmalloc_internal topoA oracleOnlyNode0 initialState 3 5 = none :=
  ⟨rfl, by decide, rfl, by decide⟩

/-- C3 amended: only a negative node id is treated as "no valid hint"
(the call is then identical to plain `zmalloc`, i.e. policy-driven
selection); any non-negative id — in range or not — is used directly
as the single allocation target, and its failure is fatal. -/
theorem c3_amended (topo : Topology) (o : Oracle) (s : ZState) (size : Nat)
    (node : Int) (hinit : s.numa_initialized = true)
    (hsup : s.numa_support_available = 0) :
    (node < 0 →
      zmalloc_internal topo o s size node = zmalloc_internal topo o s size (-1)) ∧
    (0 ≤ node →
      zmalloc_internal topo o s size node =
        if o.onnodeOk node then
          some ({ s with
                    heap := s.heap ++
                      [(s.nextAddr, ⟨size, List.replicate size 0, some node⟩)],
                    nextAddr := s.nextAddr + 1,
                    used_memory := addW s.used_memory (size + PREFIX_SIZE) },
                s.nextAddr)
        else none) := by
  have hst : stInit topo s = s := by unfold stInit; rw [if_pos hinit]
  constructor
  · intro hneg
    have hn : ¬ (0 ≤ node) := by omega
    rw [zmalloc_internal_eq, zmalloc_internal_eq, hst]
    have hatt : alloc_attempt o s node = alloc_attempt o s (-1) := by
      unfold alloc_attempt
      have hc1 : ¬ (s.numa_support_available = 0 ∧ 0 ≤ node) := by
        rintro ⟨-, hcon⟩; exact hn hcon
      have hc2 : ¬ (s.numa_support_available = 0 ∧ 0 ≤ (-1 : Int)) := by
        rintro ⟨-, hcon⟩; omega
      rw [if_neg hc1, if_neg hc2]
    rw [hatt]
  · intro hpos
    rw [zmalloc_internal_eq, hst]
    have hatt : alloc_attempt o s node =
        if o.onnodeOk node then some (some node) else none := by
      unfold alloc_attempt
      rw [if_pos ⟨hsup, hpos⟩]
    rw [hatt]
    by_cases ho : o.onnodeOk node <;> simp [ho]

/-- Initialized allocator state over the single-node topology. -/
def sInitA : ZState := zmalloc_numa_init topoA initialState

theorem c3_amended_witness :
    zmalloc_internal topoA oracleOk sInitA 3 (-7) =
      zmalloc_internal topoA oracleOk sInitA 3 (-1) :=
  (c3_amended topoA oracleOk sInitA 3 (-7) (by decide) (by decide)).1 (by decide)

/-- C9 counterexample: calling `zmalloc_set_numa_node` with the
out-of-range id -5 on a not-yet-initialized allocator does change the
stored default node: the call first runs the lazy topology
initialization, which overwrites `default_numa_node` (from -1 to the
nearest node 0 on `topoB`) before the range check rejects the
argument.  The claim's "leaves the stored default node (and all other
allocator state) unchanged" therefore fails on uninitialized
states. -/
theorem c9_counterexample :
    initialState.default_numa_node = -1 ∧
    (zmalloc_set_numa_node topoB initialState (-5)).default_numa_node = 0 :=
  ⟨rfl, by decide⟩

/-- C9 amended: once topology initialization has run (every facade
call triggers it lazily, including this one), `zmalloc_set_numa_node`
with an out-of-range id reports only a diagnostic and leaves the whole
allocator state unchanged, while an id in `[0, max_node_index()]` sets
the default node to exactly that value and changes nothing else.  On a
not-yet-initialized state the lazy initialization itself may rewrite
the default node and the topology fields first. -/
theorem c9_amended (topo : Topology) (s : ZState) (node : Int)
    (hinit : s.numa_initialized = true) :
    zmalloc_set_numa_node topo s node =
      if 0 ≤ node ∧ node < topo.maxNode + 1 then { s with default_numa_node := node }
      else s := by
  simp [zmalloc_set_numa_node, hinit]

theorem c9_amended_witness :
    zmalloc_set_numa_node topoA sInitA 0 =
      if 0 ≤ (0 : Int) ∧ (0 : Int) < topoA.maxNode + 1 then
        { sInitA with default_numa_node := 0 }
      else sInitA :=
  c9_amended topoA sInitA 0 (by decide)

/-! Section: Claim C10: zmalloc_get_current_numa_node -/

/-- Every node id the allocator can store as default while NUMA
support is reported available is non-negative; this holds for every
reachable state (established by `zmalloc_numa_init`, preserved by all
operations, which only store ids `>= 0`). -/
def DefaultNodeInv (s : ZState) : Prop :=
  s.numa_initialized = true → s.numa_support_available = 0 → 0 ≤ s.default_numa_node

theorem mem_availableNodes_nonneg (topo : Topology) (x : Int)
    (hx : x ∈ availableNodes topo) : 0 ≤ x := by
  unfold availableNodes at hx
  rw [List.mem_filter] at hx
  obtain ⟨hx1, -⟩ := hx
  rw [List.mem_map] at hx1
  obtain ⟨i, -, rfl⟩ := hx1
  exact Int.ofNat_nonneg i

theorem mem_init_sorted_list_nonneg (topo : Topology) (x : Int)
    (hx : x ∈ init_sorted_list topo) : 0 ≤ x := by
  unfold init_sorted_list at hx
  exact mem_availableNodes_nonneg topo x
    ((List.perm_insertionSort (nodeLe topo) (availableNodes topo)).mem_iff.mp hx)

theorem zmalloc_numa_init_initialized (topo : Topology) (s : ZState)
    (h : s.numa_initialized = true) : zmalloc_numa_init topo s = s := by
  unfold zmalloc_numa_init
  rw [if_pos h]

theorem zmalloc_numa_init_sets_initialized (topo : Topology) (s : ZState) :
    (zmalloc_numa_init topo s).numa_initialized = true := by
  unfold zmalloc_numa_init init_sorted_nodes
  by_cases h1 : s.numa_initialized <;> simp [h1]

theorem init_default_nonneg (topo : Topology) (s : ZState)
    (hsup : (zmalloc_numa_init topo s).numa_support_available = 0) :
    DefaultNodeInv s → 0 ≤ (zmalloc_numa_init topo s).default_numa_node := by
  intro hinv
  by_cases h1 : s.numa_initialized
  · rw [zmalloc_numa_init_initialized topo s h1] at hsup ⊢
    exact hinv h1 hsup
  · unfold zmalloc_numa_init init_sorted_nodes at hsup ⊢
    simp only [h1, if_false, Bool.false_eq_true] at hsup ⊢
    by_cases hA : topo.numaAvailable = 0
    · by_cases hM : 0 ≤ topo.maxNode
      · have hM' : ¬ topo.maxNode < 0 := by omega
        by_cases hE : availableNodes topo = []
        · simp [hA, hM, hM', hE] at hsup
        · simp only [hA, hM, hM', hE, List.isEmpty_iff, if_true, if_false,
            if_neg, if_pos] at hsup ⊢
          by_cases hL : 0 < ((availableNodes topo).length : Int)
          · simp only [hL, if_pos, if_true] at hsup ⊢
            cases hsl : init_sorted_list topo with
            | nil =>
              have hp : (init_sorted_list topo).Perm (availableNodes topo) :=
                List.perm_insertionSort _ _
              rw [hsl] at hp
              exact absurd hp.nil_eq.symm hE
            | cons n t =>
              simp [sortedHead, hsl]
              exact mem_init_sorted_list_nonneg topo n (by rw [hsl]; simp)
          · simp [hL] at hsup
      · have hM' : topo.maxNode < 0 := by omega
        simp [hA, hM, hM'] at hsup
    · simp [hA] at hsup


theorem stInit_initialized (topo : Topology) (s : ZState)
    (h : s.numa_initialized = true) : stInit topo s = s := by
  unfold stInit
  rw [if_pos h]

theorem get_current_eq (topo : Topology) (s : ZState) :
    zmalloc_get_current_numa_node topo s =
      (stInit topo s,
        if (stInit topo s).numa_support_available = 0 then
          (stInit topo s).default_numa_node
        else -1) := by
  unfold zmalloc_get_current_numa_node stInit
  by_cases h1 : s.numa_initialized <;> simp [h1] <;> split_ifs <;> rfl

/-- C10: `zmalloc_get_current_numa_node` does not re-probe the calling
thread's node.  On an initialized state its result is independent of
the topology snapshot passed in (in particular of `sched_getcpu`); when
NUMA support is available it returns the stored default node, so after
a successful `zmalloc_set_numa_node n` it returns `n` whatever node the
caller runs on; and it returns `-1` exactly when NUMA support is
unavailable.  The hypothesis `DefaultNodeInv s` holds in every
reachable state (initialization stores a present node as default and
`zmalloc_set_numa_node` only stores non-negative ids). -/
theorem c10_current_node (topo topo' : Topology) (s : ZState) (n : Int)
    (hinv : DefaultNodeInv s) (hn1 : 0 ≤ n) (hn2 : n < topo.maxNode + 1) :
    ((zmalloc_get_current_numa_node topo s).1.numa_support_available = 0 →
      (zmalloc_get_current_numa_node topo s).2 =
        (zmalloc_get_current_numa_node topo s).1.default_numa_node) ∧
    ((zmalloc_get_current_numa_node topo s).2 = -1 ↔
      (zmalloc_get_current_numa_node topo s).1.numa_support_available ≠ 0) ∧
    (s.numa_initialized = true →
      zmalloc_get_current_numa_node topo' s = zmalloc_get_current_numa_node topo s) ∧
    ((zmalloc_set_numa_node topo s n).numa_support_available = 0 →
      (zmalloc_get_current_numa_node topo' (zmalloc_set_numa_node topo s n)).2 = n) := by
  refine ⟨?_, ?_, ?_, ?_⟩
  · rw [get_current_eq]
    intro hsup
    simp only at hsup ⊢
    rw [if_pos hsup]
  · rw [get_current_eq]
    simp only
    by_cases hc : (stInit topo s).numa_support_available = 0
    · rw [if_pos hc]
      have hdef : 0 ≤ (stInit topo s).default_numa_node := by
        unfold stInit at hc ⊢
        by_cases h1 : s.numa_initialized
        · rw [if_pos h1] at hc ⊢
          exact hinv h1 hc
        · rw [if_neg h1] at hc ⊢
          exact init_default_nonneg topo s hc hinv
      constructor
      · intro hm; omega
      · intro hne; exact absurd hc hne
    · rw [if_neg hc]
      exact ⟨fun _ => hc, fun _ => rfl⟩
  · intro h1
    rw [get_current_eq, get_current_eq, stInit_initialized topo s h1,
        stInit_initialized topo' s h1]
  · intro hsup
    have hset : (zmalloc_set_numa_node topo s n).numa_initialized = true := by
      unfold zmalloc_set_numa_node
      by_cases h1 : s.numa_initialized
      · split_ifs <;> simp [h1]
      · split_ifs <;> simp [h1, zmalloc_numa_init_sets_initialized]
    have hdef : (zmalloc_set_numa_node topo s n).default_numa_node = n := by
      unfold zmalloc_set_numa_node
      rw [if_pos ⟨hn1, hn2⟩]
    rw [get_current_eq, stInit_initialized topo' _ hset]
    simp only
    rw [if_pos hsup, hdef]

theorem c10_current_node_witness :
    (zmalloc_get_current_numa_node topoA
      (zmalloc_set_numa_node topoB initialState 1)).2 = 1 :=
  (c10_current_node topoB topoA initialState 1
    (fun h => absurd h (by decide)) (by decide) (by decide)).2.2.2 (by decide)

/-! Section: Claim C8: reserved policies delegate to Default -/

/-- Restore a stored policy value in an allocation result, to compare
runs that differ only in the stored `current_numa_policy` field. -/
def restorePolicy (p : numa_policy_t) (r : Option (ZState × Nat)) : Option (ZState × Nat) :=
  r.map (fun x => ({ x.1 with current_numa_policy := p }, x.2))

theorem zmalloc_numa_init_policy (topo : Topology) (s : ZState) (p : numa_policy_t) :
    zmalloc_numa_init topo { s with current_numa_policy := p } =
      { zmalloc_numa_init topo s with current_numa_policy := p } := by
  unfold zmalloc_numa_init init_sorted_nodes
  by_cases h1 : s.numa_initialized <;> simp [h1, sortedHead] <;> split_ifs <;>
    first
      | rfl
      | simp [sortedHead]
      | omega

theorem stInit_policy (topo : Topology) (s : ZState) (p : numa_policy_t) :
    stInit topo { s with current_numa_policy := p } =
      { stInit topo s with current_numa_policy := p } := by
  unfold stInit
  have hinit_eq : ({ s with current_numa_policy := p } : ZState).numa_initialized =
      s.numa_initialized := rfl
  rw [hinit_eq]
  by_cases h1 : s.numa_initialized
  · rw [if_pos h1, if_pos h1]
  · rw [if_neg h1, if_neg h1]
    exact zmalloc_numa_init_policy topo s p

theorem alloc_attempt_policy (o : Oracle) (s : ZState) (node : Int)
    (p q : numa_policy_t) (hp : p ≠ .NUMA_POLICY_DISTANCE_FIRST)
    (hq : q ≠ .NUMA_POLICY_DISTANCE_FIRST) :
    alloc_attempt o { s with current_numa_policy := p } node =
      alloc_attempt o { s with current_numa_policy := q } node := by
  unfold alloc_attempt numa_alloc_distance_first
  cases p <;> cases q <;> simp_all

theorem zmalloc_internal_policy (topo : Topology) (o : Oracle) (s : ZState)
    (size : Nat) (node : Int) (p : numa_policy_t)
    (hp : p ≠ .NUMA_POLICY_DISTANCE_FIRST) :
    zmalloc_internal topo o { s with current_numa_policy := p } size node =
      restorePolicy p (zmalloc_internal topo o
        { s with current_numa_policy := .NUMA_POLICY_DEFAULT } size node) := by
  rw [zmalloc_internal_eq, zmalloc_internal_eq, stInit_policy topo s p,
      stInit_policy topo s .NUMA_POLICY_DEFAULT,
      alloc_attempt_policy o (stInit topo s) node p .NUMA_POLICY_DEFAULT hp (by decide)]
  cases halt : alloc_attempt o
      { stInit topo s with current_numa_policy := numa_policy_t.NUMA_POLICY_DEFAULT } node with
  | none => simp [halt, restorePolicy]
  | some tgt => simp [halt, restorePolicy]

/-- C8: an allocation request made while the stored policy is
RoundRobin or Balanced behaves identically to the same request under
Default: same success/abort outcome, same returned block, same
accounting and heap — the result states agree on every field except
the stored policy selector itself (which keeps the value that was
set).  `zmalloc_internal` is the single allocation engine behind
`zmalloc`, `zmalloc_on_node`, and the reallocation entry points. -/
theorem c8_reserved_policies_default (topo : Topology) (o : Oracle) (s : ZState)
    (size : Nat) (node : Int) :
    zmalloc_internal topo o
        (zmalloc_set_numa_policy s .NUMA_POLICY_ROUND_ROBIN) size node =
      restorePolicy .NUMA_POLICY_ROUND_ROBIN
        (zmalloc_internal topo o
          (zmalloc_set_numa_policy s .NUMA_POLICY_DEFAULT) size node) ∧
    zmalloc_internal topo o
        (zmalloc_set_numa_policy s .NUMA_POLICY_BALANCED) size node =
      restorePolicy .NUMA_POLICY_BALANCED
        (zmalloc_internal topo o
          (zmalloc_set_numa_policy s .NUMA_POLICY_DEFAULT) size node) :=
  ⟨zmalloc_internal_policy topo o s size node _ (by decide),
   zmalloc_internal_policy topo o s size node _ (by decide)⟩

/-! Section: Claim C4: the node ranking table -/

theorem compare_nodes_sub (topo : Topology) (a b : Int) :
    compare_nodes_by_distance topo a b =
      topo.distance (refNode topo) a - topo.distance (refNode topo) b := by
  unfold compare_nodes_by_distance refNode
  split_ifs <;> rfl

/-- What the C standard guarantees about the array `qsort` leaves
behind: a permutation of the input (the present nodes, collected in
ascending id order) that is ordered by the comparator.  Nothing
constrains the relative order of elements the comparator ties. -/
def qsortContractResult (topo : Topology) (l : List Int) : Prop :=
  l.Perm (availableNodes topo) ∧ List.Pairwise (nodeLe topo) l

/-- The ordering claimed by the spec (section 4.2), stated from its
words: ascending by distance from the reference node, ties broken by
ascending node id. -/
def rankingSpecOrder (topo : Topology) (l : List Int) : Prop :=
  l.Perm (availableNodes topo) ∧
  List.Pairwise (fun a b =>
    topo.distance (refNode topo) a < topo.distance (refNode topo) b ∨
    (topo.distance (refNode topo) a = topo.distance (refNode topo) b ∧ a < b)) l

/-- C4 counterexample: on `topoC` nodes 1 and 2 tie at distance 20
from reference node 0.  The list `[0, 2, 1]` satisfies everything the
code's comparator and `qsort`'s contract enforce, yet violates the
claimed ascending-id tie-break: `compare_nodes_by_distance` returns 0
on ties and `qsort` gives no stability guarantee, so the code does not
ensure the claimed order. -/
theorem c4_counterexample :
    qsortContractResult topoC [0, 2, 1] ∧ ¬ rankingSpecOrder topoC [0, 2, 1] := by
  constructor
  · constructor
    · have hav : availableNodes topoC = [0, 1, 2] := by decide
      rw [hav]
      exact List.Perm.cons 0 (List.Perm.swap 1 2 [])
    · decide
  · rintro ⟨-, hpw⟩
    have h21 := (List.pairwise_cons.mp (List.pairwise_cons.mp hpw).2).1 1 (by simp)
    exact absurd h21 (by decide)

/-- C4 amended: for a fixed topology snapshot and reference node, the
ranking enumerates exactly the nodes reported present and is sorted
ascending by distance from the reference node; the relative order of
equal-distance nodes is whatever the sort routine produces (the
comparator does not order ties).  Building twice from the same
snapshot yields identical sequences (the modelled build is a pure
function of the snapshot). -/
theorem c4_amended (topo : Topology) :
    (init_sorted_list topo).Perm (availableNodes topo) ∧
    List.Pairwise (fun a b =>
      topo.distance (refNode topo) a ≤ topo.distance (refNode topo) b)
      (init_sorted_list topo) ∧
    init_sorted_list topo = init_sorted_list topo := by
  refine ⟨List.perm_insertionSort _ _, ?_, rfl⟩
  have htot : ∀ a b : Int, nodeLe topo a b ∨ nodeLe topo b a := by
    intro a b
    unfold nodeLe
    rw [compare_nodes_sub, compare_nodes_sub]
    omega
  have htrans : ∀ a b c : Int, nodeLe topo a b → nodeLe topo b c → nodeLe topo a c := by
    intro a b c
    unfold nodeLe
    rw [compare_nodes_sub, compare_nodes_sub, compare_nodes_sub]
    omega
  haveI : IsTotal Int (nodeLe topo) := ⟨htot⟩
  haveI : IsTrans Int (nodeLe topo) := ⟨fun a b c => htrans a b c⟩
  have hs := List.sorted_insertionSort (nodeLe topo) (availableNodes topo)
  refine List.Pairwise.imp ?_ hs
  intro a b hab
  unfold nodeLe at hab
  rw [compare_nodes_sub] at hab
  omega

/-! Section: Claim C5: reallocate-on-node preserves the payload prefix -/

theorem hlookup_mem (h : List (Nat × Block)) (p : Nat) (b : Block)
    (hl : hlookup h p = some b) : (p, b) ∈ h := by
  induction h with
  | nil => simp [hlookup] at hl
  | cons x t ih =>
    cases x with
    | mk k bb =>
      by_cases hk : k = p
      · simp [hlookup, hk] at hl
        subst hk
        subst hl
        simp
      · simp [hlookup, hk] at hl
        simp [ih hl]

theorem take_append_len (l₁ l₂ : List Nat) (n : Nat) (h : l₁.length = n) :
    (l₁ ++ l₂).take n = l₁ := by
  rw [← h]
  exact List.take_left l₁ l₂

/-- C5: `zrealloc_on_node` on a live block of payload size `S` whose
payload holds known bytes preserves the prefix: with new size
`S2 >= S` the first `S` bytes of the new block equal the whole old
payload, and with `S2 < S` the first `S2` bytes are preserved — the
code copies `min(old payload size, new payload size)` bytes into the
newly allocated block before freeing the old one.  `hfresh` is the
freshness invariant of the heap model (every live address was handed
out before `nextAddr`), which holds in every reachable state. -/
theorem c5_realloc_on_node_preserves (topo : Topology) (o : Oracle) (s : ZState)
    (p : Nat) (blk : Block) (size : Nat) (node : Int) (s' : ZState) (a : Nat)
    (newblk : Block)
    (hfresh : ∀ k b, (k, b) ∈ s.heap → k < s.nextAddr)
    (hp : hlookup s.heap p = some blk)
    (hlen : blk.data.length = blk.size)
    (hres : zrealloc_on_node topo o s (some p) size node = some (s', a))
    (hnew : hlookup s'.heap a = some newblk) :
    (blk.size ≤ size → newblk.data.take blk.size = blk.data) ∧
    (size < blk.size → newblk.data.take size = blk.data.take size) := by
  cases hm : zmalloc_on_node topo o s size node with
  | none =>
    simp only [zrealloc_on_node, hm] at hres
    exact absurd hres (by simp)
  | some r =>
    obtain ⟨s1, newa⟩ := r
    obtain ⟨tgt, -, hs1, hnewa⟩ := zmalloc_internal_shape topo o s size node s1 newa hm
    obtain ⟨hheap, -, hnext, -⟩ := stInit_preserves topo s
    have hs1heap : s1.heap =
        s.heap ++ [(s.nextAddr, ⟨size, List.replicate size 0, tgt⟩)] := by
      rw [hs1]
      show (stInit topo s).heap ++ [((stInit topo s).nextAddr, _)] = _
      rw [hheap, hnext]
    have hnewa' : newa = s.nextAddr := by rw [hnewa, hnext]
    have hp1 : hlookup s1.heap p = some blk := by
      rw [hs1heap]
      exact hlookup_append_left s.heap _ p blk hp
    have hfr : hlookup s1.heap newa = some ⟨size, List.replicate size 0, tgt⟩ := by
      rw [hs1heap, hnewa']
      exact hlookup_append_fresh s.heap s.nextAddr _
        (fun k b hmem => Nat.ne_of_lt (hfresh k b hmem))
    have hpne : p ≠ newa := by
      have hplt := hfresh p blk (hlookup_mem s.heap p blk hp)
      omega
    simp only [zrealloc_on_node, hm, hp1] at hres
    have hcpy : memcpyInto s1.heap newa (blk.data.take (min blk.size size)) =
        hupdate s1.heap newa ⟨size,
          blk.data.take (min blk.size size) ++
            (List.replicate size 0).drop (blk.data.take (min blk.size size)).length,
          tgt⟩ := by
      unfold memcpyInto
      rw [hfr]
    rw [hcpy] at hres
    have hlook2 : hlookup (hupdate s1.heap newa ⟨size,
        blk.data.take (min blk.size size) ++
          (List.replicate size 0).drop (blk.data.take (min blk.size size)).length,
        tgt⟩) p = some blk := by
      rw [hlookup_hupdate_ne s1.heap newa p _ hpne]
      exact hp1
    simp only [zfree_internal, hlook2] at hres
    simp only [Option.some.injEq, Prod.mk.injEq] at hres
    obtain ⟨hs', ha⟩ := hres
    rw [← hs', ← ha] at hnew
    dsimp only at hnew
    rw [hlookup_hremove_ne _ p newa (fun hcon => hpne hcon.symm)] at hnew
    rw [hlookup_hupdate_self s1.heap newa _ _ hfr] at hnew
    have hnb : newblk = ⟨size,
        blk.data.take (min blk.size size) ++
          (List.replicate size 0).drop (blk.data.take (min blk.size size)).length,
        tgt⟩ := by
      have := hnew
      simp only [Option.some.injEq] at this
      exact this.symm
    subst hnb
    constructor
    · intro hle
      have hmin : min blk.size size = blk.size := Nat.min_eq_left hle
      show ((blk.data.take (min blk.size size) ++
        (List.replicate size 0).drop (blk.data.take (min blk.size size)).length)).take
          blk.size = blk.data
      rw [hmin]
      have hfull : blk.data.take blk.size = blk.data := by
        rw [← hlen]
        exact List.take_length blk.data
      rw [hfull]
      exact take_append_len blk.data _ blk.size hlen
    · intro hlt
      have hmin : min blk.size size = size := Nat.min_eq_right (Nat.le_of_lt hlt)
      show ((blk.data.take (min blk.size size) ++
        (List.replicate size 0).drop (blk.data.take (min blk.size size)).length)).take
          size = blk.data.take size
      rw [hmin]
      refine take_append_len _ _ _ ?_
      rw [List.length_take, hlen]
      omega

/-- Live block used by the C5 witness. -/
def blkC5 : Block := ⟨3, [7, 8, 9], some 0⟩

/-- Initialized single-block state used by the C5 witness. -/
def sC5 : ZState :=
  { used_memory := 11, zmalloc_thread_safe := false, numa_support_available := 0,
    default_numa_node := 0, numa_initialized := true,
    sorted_nodes_by_distance := some [0], num_available_nodes := 1,
    current_numa_policy := .NUMA_POLICY_DISTANCE_FIRST,
    heap := [(0, blkC5)], nextAddr := 1 }

/-- Result state of the C5 witness call. -/
def sC5r : ZState := ((zrealloc_on_node topoA oracleOk sC5 (some 0) 5 0).getD
  (initialState, 0)).1

/-- Result address of the C5 witness call. -/
def aC5 : Nat := ((zrealloc_on_node topoA oracleOk sC5 (some 0) 5 0).getD
  (initialState, 0)).2

/-- New block of the C5 witness call. -/
def newblkC5 : Block := (hlookup sC5r.heap aC5).getD ⟨0, [], none⟩

theorem c5_realloc_on_node_preserves_witness :
    (blkC5.size ≤ 5 → newblkC5.data.take blkC5.size = blkC5.data) ∧
    (5 < blkC5.size → newblkC5.data.take 5 = blkC5.data.take 5) :=
  c5_realloc_on_node_preserves topoA oracleOk sC5 0 blkC5 5 0 sC5r aC5 newblkC5
    (by intro k b hmem
        simp [sC5] at hmem
        obtain ⟨hk, -⟩ := hmem
        simp [sC5, hk])
    (by decide) (by decide) (by decide) (by decide)
